import Mathlib

/-!
Shallow embedding of the audio/video merger iterations.

The repository consists of successive iterations of one script:
an early simple-padding iteration (part_000 and iterations/index2.js),
a chunked-padding iteration driven by processMedia, and a final
iteration whose orchestrator is the async function mergeAudioVideo
with a temporary workspace.  Times are modelled as rationals, the
external media tool as symbolic tracks and file lists, and the
orchestrator's control flow as explicit state.
-/

/-- Kind of a detected silence boundary; the source tags events with
the strings for start and end (part_001, detectSilences). -/
inductive SilType where
  | start
  | endk
deriving DecidableEq, Repr

/-- One scraped silence event: a kind tag and a timestamp in seconds
(part_001, detectSilences pushes objects of this shape). -/
structure SilenceEvent where
  type : SilType
  time : ℚ
deriving DecidableEq, Repr

/-- Numeric value of a digit run, most significant first. -/
def digitsVal (cs : List Char) : ℕ :=
  cs.foldl (fun acc c => 10 * acc + (c.toNat - 48)) 0

/-- Match the regex fragment of one or more digits, a dot, then one or
more digits, at the head of the character list, returning its value as
a rational (the source applies parseFloat to the captured group). -/
def parseFixedPoint (cs : List Char) : Option ℚ :=
  let intDigits := cs.takeWhile (fun c => c.isDigit)
  if intDigits.isEmpty then none
  else
    match cs.drop intDigits.length with
    | '.' :: rest =>
      let fracDigits := rest.takeWhile (fun c => c.isDigit)
      if fracDigits.isEmpty then none
      else some ((digitsVal intDigits : ℚ)
        + (digitsVal fracDigits : ℚ) / ((10 : ℚ) ^ fracDigits.length))
    | _ => none

/-- Strip a literal pattern from the head of a character list. -/
def stripPat : List Char → List Char → Option (List Char)
  | [], cs => some cs
  | _ :: _, [] => none
  | p :: ps, c :: cs => if p = c then stripPat ps cs else none

/-- Scan a line for the first position where the literal pattern is
followed by a digits-dot-digits timestamp, as the anchored-nowhere
regexes in detectSilences do; on a failed float parse the scan resumes
one character later. -/
def scanMatch (pat : List Char) : List Char → Option ℚ
  | [] => none
  | c :: cs =>
    match stripPat pat (c :: cs) with
    | some rest =>
      match parseFixedPoint rest with
      | some t => some t
      | none => scanMatch pat cs
    | none => scanMatch pat cs

/-- Literal part of the silence-start regex in detectSilences. -/
def silenceStartPat : List Char := ("silence_start: ").toList

/-- Literal part of the silence-end regex in detectSilences. -/
def silenceEndPat : List Char := ("silence_end: ").toList

/-- Events pushed for one stderr line: a start event if the start
regex matches, then an end event if the end regex matches
(part_001 lines 638 to 651). -/
def parseLineEvents (line : String) : List SilenceEvent :=
  let cs := line.toList
  (match scanMatch silenceStartPat cs with
   | some t => [⟨SilType.start, t⟩]
   | none => []) ++
  (match scanMatch silenceEndPat cs with
   | some t => [⟨SilType.endk, t⟩]
   | none => [])

/-- detectSilences as a function of the tool's stderr lines: the
events of each line in emission order. -/
def detectSilencesModel (stderrLines : List String) : List SilenceEvent :=
  (stderrLines.map parseLineEvents).flatten

/-- Inner loop of the chunked analyzer (part_001 lines 681 to 689):
walk the events, pushing a chunk from lastEndTime to each start time
when lastEndTime is strictly smaller, and moving lastEndTime to each
end time; returns the chunks and the final lastEndTime. -/
def chunksLoop : List SilenceEvent → ℚ → List (ℚ × ℚ) × ℚ
  | [], lastEndTime => ([], lastEndTime)
  | e :: rest, lastEndTime =>
    match e.type with
    | SilType.start =>
      let pre := if lastEndTime < e.time then [(lastEndTime, e.time)] else []
      let tail := chunksLoop rest lastEndTime
      (pre ++ tail.1, tail.2)
    | SilType.endk => chunksLoop rest e.time

/-- Final lastEndTime of the analyzer walk, which the source then
names audioDuration (part_001 line 691). -/
def lastEndTime (silenceTimes : List SilenceEvent) : ℚ :=
  (chunksLoop silenceTimes 0).2

/-- Chunk list of the chunked extendAudioWithSilence (part_001 lines
678 to 694).  The source sets audioDuration to lastEndTime and then
guards the trailing chunk with audioDuration strictly greater than
lastEndTime, so that branch is unreachable; it is kept verbatim. -/
def audioChunks (silenceTimes : List SilenceEvent) : List (ℚ × ℚ) :=
  let chunks := (chunksLoop silenceTimes 0).1
  let audioDuration := lastEndTime silenceTimes
  if audioDuration > lastEndTime silenceTimes then
    chunks ++ [(lastEndTime silenceTimes, audioDuration)]
  else chunks

/-- One piece of assembled audio: a trimmed copy of the input between
two timestamps, or a generated silence clip of a given duration. -/
inductive Piece where
  | seg (startTime stopTime : ℚ)
  | sil (duration : ℚ)
deriving DecidableEq, Repr

/-- Content of the padded track produced by the chunked
extendAudioWithSilence of the final iteration (part_001 lines 698 to
763): per chunk a trimmed segment followed by a silence clip of
min of silencePerChunk and 5 seconds, all concatenated in chunk
order, where silencePerChunk divides the deficit videoDuration minus
the analyzer's audioDuration by the number of chunks. -/
def extendAudioPlan (silenceTimes : List SilenceEvent) (videoDuration : ℚ) : List Piece :=
  let chunks := audioChunks silenceTimes
  let audioDuration := lastEndTime silenceTimes
  let totalSilenceNeeded := videoDuration - audioDuration
  let silencePerChunk := totalSilenceNeeded / (chunks.length : ℚ)
  (chunks.map (fun c => [Piece.seg c.1 c.2, Piece.sil (min silencePerChunk 5)])).flatten

/-- Reading of the specification's audioContentDuration as the total
content length of the AudioSegments; defined from the spec's words,
for comparison with the deficit the source actually uses. -/
def specAudioContentDuration (silenceTimes : List SilenceEvent) : ℚ :=
  ((audioChunks silenceTimes).map (fun c => c.2 - c.1)).sum

/-- Intermediate files the iterations write. -/
inductive TempFile where
  | chunkFile (index : ℕ)
  | silenceFile (index : ℕ)
  | mergedFile (index : ℕ)
  | extendedAudio
  | loopedVideo
  | singleSilence
deriving DecidableEq, Repr

/-- Files written by the chunked extendAudioWithSilence of the final
iteration (part_001 lines 698 to 763): one chunk file per chunk, one
merged file per chunk, and the extended-audio output. -/
def extendAudioFiles (silenceTimes : List SilenceEvent) : List TempFile :=
  let n := (audioChunks silenceTimes).length
  (List.range n).map TempFile.chunkFile
    ++ (List.range n).map TempFile.mergedFile
    ++ [TempFile.extendedAudio]

/-- Files written by the chunked extendAudioWithSilence of the
processMedia iteration (part_001 lines 342 to 465), which also writes
one generated silence file per chunk. -/
def extendAudioFilesIter2 (silenceTimes : List SilenceEvent) : List TempFile :=
  let n := (audioChunks silenceTimes).length
  (List.range n).map TempFile.chunkFile
    ++ (List.range n).map TempFile.silenceFile
    ++ (List.range n).map TempFile.mergedFile
    ++ [TempFile.extendedAudio]

/-- Result of loopVideo (part_001 lines 777 to 801). -/
inductive LoopResult where
  | original
  | looped (loopCount : ℤ) (outDuration : ℚ)
deriving DecidableEq, Repr

/-- loopVideo: when the audio is not longer than the video it resolves
with the original video; otherwise it loops ceil of audio over video
times and trims the looped stream with the -t option to the audio
duration, modelled as the min of the looped length and that bound. -/
def loopVideoRes (videoDuration audioDuration : ℚ) : LoopResult :=
  if audioDuration ≤ videoDuration then LoopResult.original
  else
    let loopCount := ⌈audioDuration / videoDuration⌉
    LoopResult.looped loopCount (min ((loopCount : ℚ) * videoDuration) audioDuration)

/-- Files written by loopVideo: the looped video only when looping
actually happens. -/
def loopVideoFiles (videoDuration audioDuration : ℚ) : List TempFile :=
  if audioDuration ≤ videoDuration then [] else [TempFile.loopedVideo]

/-- Alignment decision of the processMedia orchestrator
(part_001 lines 555 to 561): loop when the audio is strictly longer,
pad when the video is strictly longer, otherwise change nothing. -/
inductive AlignMode where
  | loopVideoMode
  | padAudioMode
  | noChange
deriving DecidableEq, Repr

/-- Branch taken by processMedia on the two probed durations. -/
def processMediaMode (videoDuration audioDuration : ℚ) : AlignMode :=
  if audioDuration > videoDuration then AlignMode.loopVideoMode
  else if videoDuration > audioDuration then AlignMode.padAudioMode
  else AlignMode.noChange

/-- Intermediate files of one processMedia run: the loop branch or the
pad branch writes files, the equal-duration branch writes nothing. -/
def processMediaFiles (videoDuration audioDuration : ℚ)
    (silenceTimes : List SilenceEvent) : List TempFile :=
  if audioDuration > videoDuration then loopVideoFiles videoDuration audioDuration
  else if videoDuration > audioDuration then extendAudioFilesIter2 silenceTimes
  else []

/-- Intermediate files of one mergeAudioVideo run of the final
iteration (part_001 lines 811 to 848): extendAudioWithSilence and
loopVideo are both invoked unconditionally, with no duration guard
around the padding call. -/
def mergeAudioVideoFiles (videoDuration audioDuration : ℚ)
    (silenceTimes : List SilenceEvent) : List TempFile :=
  extendAudioFiles silenceTimes ++ loopVideoFiles videoDuration audioDuration

/-- Pipeline stages awaited inside the try block of mergeAudioVideo. -/
inductive Stage where
  | probeVideoS
  | probeAudioS
  | extendS
  | loopS
  | muxS
deriving DecidableEq, Repr

/-- Oracle for the success or failure of each awaited stage of one
mergeAudioVideo run. -/
structure StageOutcomes where
  probeVideoOk : Bool
  probeAudioOk : Bool
  extendOk : Bool
  loopOk : Bool
  muxOk : Bool
deriving DecidableEq, Repr

/-- The try block of mergeAudioVideo (part_001 lines 814 to 840): the
five awaits run in order and the first rejection aborts the rest. -/
def tryBody (o : StageOutcomes) : Except Stage Unit :=
  if !o.probeVideoOk then Except.error Stage.probeVideoS
  else if !o.probeAudioOk then Except.error Stage.probeAudioS
  else if !o.extendOk then Except.error Stage.extendS
  else if !o.loopOk then Except.error Stage.loopS
  else if !o.muxOk then Except.error Stage.muxS
  else Except.ok ()

/-- Stages actually started by one run: each stage runs once, and no
stage after the first failing one is reached. -/
def stagesRun (o : StageOutcomes) : List Stage :=
  Stage.probeVideoS ::
    (if o.probeVideoOk then
      Stage.probeAudioS ::
        (if o.probeAudioOk then
          Stage.extendS ::
            (if o.extendOk then
              Stage.loopS :: (if o.loopOk then [Stage.muxS] else [])
            else [])
        else [])
    else [])

/-- Observable outcome of one mergeAudioVideo run. -/
structure RunOutcome where
  tempDirCreated : Bool
  resolved : Bool
  tempDirRemoved : Bool
  loggedError : Option Stage
  stages : List Stage
deriving DecidableEq, Repr

/-- mergeAudioVideo (part_001 lines 811 to 848): the workspace is
created first; the catch block only logs the error, so the async
function resolves normally in both branches; the finally block removes
the workspace in both branches. -/
def mergeAudioVideoRun (o : StageOutcomes) : RunOutcome :=
  match tryBody o with
  | Except.ok _ =>
    { tempDirCreated := true, resolved := true, tempDirRemoved := true,
      loggedError := none, stages := stagesRun o }
  | Except.error s =>
    { tempDirCreated := true, resolved := true, tempDirRemoved := true,
      loggedError := some s, stages := stagesRun o }

/-- totalSilenceTime of the simple variant (part_000 lines 50 to 55):
the reduce adds the width of every adjacent start-end pair. -/
def totalSilenceTime : List SilenceEvent → ℚ
  | a :: b :: rest =>
    (if b.type = SilType.endk ∧ a.type = SilType.start then b.time - a.time else 0)
      + totalSilenceTime (b :: rest)
  | _ => 0

/-- Content of the simple variant's output audio. -/
inductive AudioPart where
  | original
  | silence (duration : ℚ)
deriving DecidableEq, Repr

/-- Observable result of one simple extendAudioWithSilence run. -/
structure SimpleExtendRun where
  silenceFiles : List ℚ
  outputTrack : List AudioPart
deriving DecidableEq, Repr

/-- Simple extendAudioWithSilence (part_000 lines 47 to 88): the
deficit is videoDuration minus totalSilenceTime.  When it is not
positive the first then-handler resolves with the original audio path
and creates no silence file, but the second then-handler still runs
and concatenates the original audio with that resolved value, that is
with itself.  Otherwise one silence file of min of the deficit and 5
seconds is created and concatenated after the original audio. -/
def extendAudioWithSilenceSimple (silenceTimes : List SilenceEvent)
    (videoDuration : ℚ) : SimpleExtendRun :=
  let total := totalSilenceTime silenceTimes
  let additionalSilenceNeeded := videoDuration - total
  if additionalSilenceNeeded ≤ 0 then
    { silenceFiles := [],
      outputTrack := [AudioPart.original, AudioPart.original] }
  else
    let silenceDuration := min additionalSilenceNeeded 5
    { silenceFiles := [silenceDuration],
      outputTrack := [AudioPart.original, AudioPart.silence silenceDuration] }

/-- Whether a piece is a generated silence clip. -/
def isSil : Piece → Bool
  | Piece.sil _ => true
  | Piece.seg _ _ => false

/-- Timestamps of a piece when it is a trimmed segment. -/
def segOf : Piece → Option (ℚ × ℚ)
  | Piece.seg a b => some (a, b)
  | Piece.sil _ => none

/-- Duration of a piece when it is a generated silence clip. -/
def silDur : Piece → Option ℚ
  | Piece.sil d => some d
  | Piece.seg _ _ => none

/-! Theorems. -/

/-- Helper: every silence clip of the interleaved chunk plan counts
once, so the filtered silence count equals the chunk count. -/
lemma pieceBlocks_filter_length (L : List (ℚ × ℚ)) (d : ℚ) :
    (((L.map (fun c => [Piece.seg c.1 c.2, Piece.sil d])).flatten).filter isSil).length
      = L.length := by
  induction L with
  | nil => rfl
  | cons a t ih =>
    simp only [List.map_cons, List.flatten_cons, List.filter_append, List.length_append, ih,
      List.filter_cons, List.filter_nil]
    simp [isSil]
    omega

/-- Helper: collecting the segment pieces of the interleaved chunk
plan gives back exactly the chunk list. -/
lemma pieceBlocks_filterMap_segOf (L : List (ℚ × ℚ)) (d : ℚ) :
    ((L.map (fun c => [Piece.seg c.1 c.2, Piece.sil d])).flatten).filterMap segOf = L := by
  induction L with
  | nil => rfl
  | cons a t ih => simp [segOf, ih]

/-- Helper: every silence clip of the interleaved chunk plan has the
shared per-chunk duration. -/
lemma pieceBlocks_silDur (L : List (ℚ × ℚ)) (d : ℚ) (p : Piece)
    (hp : p ∈ (L.map (fun c => [Piece.seg c.1 c.2, Piece.sil d])).flatten)
    (q : ℚ) (hq : silDur p = some q) : q = d := by
  induction L with
  | nil => simp at hp
  | cons a t ih =>
    simp only [List.map_cons, List.flatten_cons, List.mem_append, List.mem_cons,
      List.mem_singleton, List.not_mem_nil, or_false] at hp
    rcases hp with (h | h) | h
    · subst h; simp [silDur] at hq
    · subst h; simp [silDur] at hq; exact hq.symm
    · exact ih h

/-- C1: on the event sequence of Start at 2, End at 4, Start at 9 and
End at 9.5 on a 10-second track, the analyzer emits only the segments
(0,2) and (4,9); the trailing segment (9.5,10) the claim requires is
never emitted, because the source sets audioDuration to lastEndTime,
making the trailing-chunk guard unsatisfiable (and the function never
receives the track duration at all). -/
theorem c1_trailing_segment_never_emitted :
    audioChunks [⟨SilType.start, 2⟩, ⟨SilType.endk, 4⟩,
        ⟨SilType.start, 9⟩, ⟨SilType.endk, 19/2⟩]
      = [(0, 2), (4, 9)]
    ∧ audioChunks [⟨SilType.start, 2⟩, ⟨SilType.endk, 4⟩,
        ⟨SilType.start, 9⟩, ⟨SilType.endk, 19/2⟩]
      ≠ [(0, 2), (4, 9), (19/2, 10)] := by
  constructor <;> norm_num [audioChunks, chunksLoop, lastEndTime]

/-- C2 counterexample: for events Start at 2 and End at 4 with
videoDuration 5 the source emits a silence clip of 1 second, because
its deficit is videoDuration minus lastEndTime, while the claim's
formula of videoDuration minus the segment content duration over
gapCount gives 3 seconds. -/
theorem c2_deficit_counterexample :
    extendAudioPlan [⟨SilType.start, 2⟩, ⟨SilType.endk, 4⟩] 5
      = [Piece.seg 0 2, Piece.sil 1]
    ∧ min ((5 - specAudioContentDuration [⟨SilType.start, 2⟩, ⟨SilType.endk, 4⟩])
        / ((audioChunks [⟨SilType.start, 2⟩, ⟨SilType.endk, 4⟩]).length : ℚ)) 5 = 3
    ∧ ((1 : ℚ) ≠ 3) := by
  refine ⟨?_, ?_, by norm_num⟩ <;>
    norm_num [extendAudioPlan, specAudioContentDuration, audioChunks, chunksLoop,
      lastEndTime, min_def]

/-- C2 amended: for every event list with a non-empty chunk list, the
chunked plan is each chunk in original order immediately followed by
one silence clip of min of the per-gap share and 5 seconds, where the
deficit is videoDuration minus the analyzer's lastEndTime; the number
of silence insertions equals the chunk count, every silence clip lasts
at most 5 seconds, and the segment contents appear unchanged and in
order. -/
theorem c2_chunked_interleaving (silenceTimes : List SilenceEvent) (videoDuration : ℚ)
    (h : audioChunks silenceTimes ≠ []) :
    extendAudioPlan silenceTimes videoDuration
      = ((audioChunks silenceTimes).map (fun c =>
          [Piece.seg c.1 c.2,
           Piece.sil (min ((videoDuration - lastEndTime silenceTimes)
             / ((audioChunks silenceTimes).length : ℚ)) 5)])).flatten
    ∧ (((extendAudioPlan silenceTimes videoDuration).filter isSil).length
        = (audioChunks silenceTimes).length)
    ∧ (∀ p ∈ extendAudioPlan silenceTimes videoDuration, ∀ q, silDur p = some q → q ≤ 5)
    ∧ ((extendAudioPlan silenceTimes videoDuration).filterMap segOf
        = audioChunks silenceTimes) := by
  have e : extendAudioPlan silenceTimes videoDuration
      = ((audioChunks silenceTimes).map (fun c =>
          [Piece.seg c.1 c.2,
           Piece.sil (min ((videoDuration - lastEndTime silenceTimes)
             / ((audioChunks silenceTimes).length : ℚ)) 5)])).flatten := rfl
  refine ⟨e, ?_, ?_, ?_⟩
  · rw [e]; exact pieceBlocks_filter_length _ _
  · intro p hp q hq
    rw [e] at hp
    have hqd := pieceBlocks_silDur _ _ p hp q hq
    subst hqd
    exact min_le_right _ _
  · rw [e]; exact pieceBlocks_filterMap_segOf _ _

/-- C2 witness: the amended theorem applied to the events Start at 2
and End at 4 with videoDuration 10. -/
theorem c2_chunked_interleaving_witness :
    audioChunks [⟨SilType.start, 2⟩, ⟨SilType.endk, 4⟩] ≠ []
    ∧ (((extendAudioPlan [⟨SilType.start, 2⟩, ⟨SilType.endk, 4⟩] 10).filter isSil).length
        = (audioChunks [⟨SilType.start, 2⟩, ⟨SilType.endk, 4⟩]).length) := by
  have hne : audioChunks [⟨SilType.start, 2⟩, ⟨SilType.endk, 4⟩] ≠ [] := by
    norm_num [audioChunks, chunksLoop, lastEndTime]
  exact ⟨hne, (c2_chunked_interleaving _ 10 hne).2.1⟩

/-- C3: with zero silence events in PadAudio mode (videoDuration 10),
the source does not guard the division by a zero gapCount: the chunk
list is empty and the assembled plan is empty, containing neither the
original audio nor the single trailing full-deficit silence block the
claim requires. -/
theorem c3_gapcount_zero_unguarded :
    extendAudioPlan [] 10 = []
    ∧ (audioChunks ([] : List SilenceEvent)).length = 0 := by
  constructor <;> norm_num [extendAudioPlan, audioChunks, chunksLoop, lastEndTime]

/-- C4: with zero silence events the analyzer emits no segment at all,
not the single whole-track segment the claim requires: lastEndTime
stays 0, so no chunk is pushed and the trailing-chunk guard is again
unsatisfiable (for a 10-second track the claim expects (0,10)). -/
theorem c4_zero_events_no_segment :
    audioChunks [] = []
    ∧ audioChunks [] ≠ [((0 : ℚ), (10 : ℚ))] := by
  constructor <;> norm_num [audioChunks, chunksLoop, lastEndTime]

/-- C5: whenever 0 < videoDuration < audioDuration, loopVideo loops
ceil of audioDuration over videoDuration times, that count covers the
audio while one fewer does not, and the looped output is trimmed to
exactly audioDuration. -/
theorem c5_loopcount_bounds (videoDuration audioDuration : ℚ)
    (hv : 0 < videoDuration) (h : videoDuration < audioDuration) :
    loopVideoRes videoDuration audioDuration
      = LoopResult.looped ⌈audioDuration / videoDuration⌉ audioDuration
    ∧ audioDuration ≤ (⌈audioDuration / videoDuration⌉ : ℚ) * videoDuration
    ∧ ((⌈audioDuration / videoDuration⌉ : ℚ) - 1) * videoDuration < audioDuration := by
  have hle : audioDuration / videoDuration ≤ (⌈audioDuration / videoDuration⌉ : ℚ) :=
    Int.le_ceil _
  have h1 : audioDuration ≤ (⌈audioDuration / videoDuration⌉ : ℚ) * videoDuration := by
    have := (div_le_iff₀ hv).mp hle
    linarith
  have h2 : ((⌈audioDuration / videoDuration⌉ : ℚ) - 1) * videoDuration < audioDuration := by
    have hc : (⌈audioDuration / videoDuration⌉ : ℚ) < audioDuration / videoDuration + 1 :=
      Int.ceil_lt_add_one _
    have h3 : ((⌈audioDuration / videoDuration⌉ : ℚ) - 1) < audioDuration / videoDuration := by
      linarith
    have := (lt_div_iff₀ hv).mp h3
    linarith
  have e : loopVideoRes videoDuration audioDuration
      = LoopResult.looped ⌈audioDuration / videoDuration⌉
          (min ((⌈audioDuration / videoDuration⌉ : ℚ) * videoDuration) audioDuration) := by
    simp [loopVideoRes, h.not_le]
  refine ⟨?_, h1, h2⟩
  rw [e, min_eq_right h1]

/-- C5 witness: a 5-second video with a 12-second audio loops 3 times
and is trimmed to 12 seconds. -/
theorem c5_loopcount_bounds_witness :
    loopVideoRes 5 12 = LoopResult.looped 3 12
    ∧ (12 : ℚ) ≤ (3 : ℚ) * 5 ∧ ((3 : ℚ) - 1) * 5 < 12 := by
  have hceil : (⌈(12 : ℚ) / 5⌉ : ℤ) = 3 := by
    rw [Int.ceil_eq_iff] <;> norm_num
  have h := c5_loopcount_bounds 5 12 (by norm_num) (by norm_num)
  rw [hceil] at h
  refine ⟨h.1, by norm_num, by norm_num⟩

/-- C6 counterexample: with exactly equal durations of 10 seconds and
one detected silence from 2 to 4, the final iteration's orchestrator
still runs the padding path unconditionally and writes a chunk file, a
merged file and the extended audio, so the pipeline does create
intermediate artifacts at equal durations. -/
theorem c6_equal_durations_artifacts :
    mergeAudioVideoFiles 10 10 [⟨SilType.start, 2⟩, ⟨SilType.endk, 4⟩]
      = [TempFile.chunkFile 0, TempFile.mergedFile 0, TempFile.extendedAudio]
    ∧ mergeAudioVideoFiles 10 10 [⟨SilType.start, 2⟩, ⟨SilType.endk, 4⟩] ≠ [] := by
  have h1 : mergeAudioVideoFiles 10 10 [⟨SilType.start, 2⟩, ⟨SilType.endk, 4⟩]
      = [TempFile.chunkFile 0, TempFile.mergedFile 0, TempFile.extendedAudio] := by
    norm_num [mergeAudioVideoFiles, extendAudioFiles, audioChunks, chunksLoop,
      lastEndTime, loopVideoFiles, List.range_succ]
  refine ⟨h1, ?_⟩
  rw [h1]
  decide

/-- C6 amended: in the processMedia iteration, exactly equal durations
take neither the loop branch nor the pad branch and create no
intermediate file, and the loop routine itself creates no file at
equal durations; the comparison is exact, with no epsilon, and the
final mergeAudioVideo iteration violates the claim by invoking the
padding routine unconditionally. -/
theorem c6_processmedia_equal_noop (videoDuration : ℚ)
    (silenceTimes : List SilenceEvent) :
    processMediaMode videoDuration videoDuration = AlignMode.noChange
    ∧ processMediaFiles videoDuration videoDuration silenceTimes = []
    ∧ loopVideoFiles videoDuration videoDuration = [] := by
  refine ⟨?_, ?_, ?_⟩ <;>
    simp [processMediaMode, processMediaFiles, loopVideoFiles, lt_irrefl]

/-- C7 counterexample: when the padding stage fails, the run of the
final iteration's orchestrator still resolves successfully, because
the catch block only logs the error; the failure is recorded in the
log and not reported to the caller. -/
theorem c7_error_swallowed :
    (mergeAudioVideoRun ⟨true, true, false, true, true⟩).resolved = true
    ∧ (mergeAudioVideoRun ⟨true, true, false, true, true⟩).loggedError
        = some Stage.extendS := by
  simp [mergeAudioVideoRun, tryBody]

/-- C7 amended: for every combination of stage outcomes the run
resolves successfully (the catch block swallows the error after
logging it); a stage failure does abort all later stages, and no stage
runs more than once, but the failure is never reported to the
caller. -/
theorem c7_abort_no_retry_resolve (o : StageOutcomes) :
    (mergeAudioVideoRun o).resolved = true
    ∧ List.Nodup (mergeAudioVideoRun o).stages
    ∧ (o.probeVideoOk = false → (mergeAudioVideoRun o).stages = [Stage.probeVideoS]
        ∧ (mergeAudioVideoRun o).loggedError = some Stage.probeVideoS)
    ∧ (o.probeVideoOk = true → o.probeAudioOk = false →
        (mergeAudioVideoRun o).stages = [Stage.probeVideoS, Stage.probeAudioS]
        ∧ (mergeAudioVideoRun o).loggedError = some Stage.probeAudioS)
    ∧ (o.probeVideoOk = true → o.probeAudioOk = true → o.extendOk = false →
        (mergeAudioVideoRun o).stages = [Stage.probeVideoS, Stage.probeAudioS, Stage.extendS]
        ∧ (mergeAudioVideoRun o).loggedError = some Stage.extendS)
    ∧ (o.probeVideoOk = true → o.probeAudioOk = true → o.extendOk = true → o.loopOk = false →
        (mergeAudioVideoRun o).stages
          = [Stage.probeVideoS, Stage.probeAudioS, Stage.extendS, Stage.loopS]
        ∧ (mergeAudioVideoRun o).loggedError = some Stage.loopS)
    ∧ (o.probeVideoOk = true → o.probeAudioOk = true → o.extendOk = true → o.loopOk = true →
        o.muxOk = false →
        (mergeAudioVideoRun o).stages
          = [Stage.probeVideoS, Stage.probeAudioS, Stage.extendS, Stage.loopS, Stage.muxS]
        ∧ (mergeAudioVideoRun o).loggedError = some Stage.muxS) := by
  obtain ⟨pv, pa, ex, lp, mx⟩ := o
  cases pv <;> cases pa <;> cases ex <;> cases lp <;> cases mx <;>
    simp [mergeAudioVideoRun, tryBody, stagesRun]

/-- C7 witness: the amended theorem applied to a run whose padding
stage fails: the loop and mux stages never run. -/
theorem c7_abort_no_retry_resolve_witness :
    (mergeAudioVideoRun ⟨true, true, false, true, true⟩).stages
      = [Stage.probeVideoS, Stage.probeAudioS, Stage.extendS]
    ∧ (mergeAudioVideoRun ⟨true, true, false, true, true⟩).loggedError
        = some Stage.extendS :=
  (c7_abort_no_retry_resolve ⟨true, true, false, true, true⟩).2.2.2.2.1 rfl rfl rfl

/-- C8: for every combination of stage outcomes, success and every
failure alike, the temporary workspace is created at run start and the
finally block removes it recursively before the run returns. -/
theorem c8_workspace_always_cleaned (o : StageOutcomes) :
    (mergeAudioVideoRun o).tempDirCreated = true
    ∧ (mergeAudioVideoRun o).tempDirRemoved = true := by
  cases h : tryBody o <;> simp [mergeAudioVideoRun, h]

/-- C9: the scraper's regexes require a decimal point in the
timestamp: the integer-second lines for silence start 3 and silence
end 4 produce no event, a decimal line does, and the stream scraped
from an integer start line followed by a decimal end line is a single
End event with no preceding Start. -/
theorem c9_integer_timestamps_dropped :
    parseLineEvents ("silence_start: 3") = []
    ∧ parseLineEvents ("silence_end: 4") = []
    ∧ parseLineEvents ("silence_start: 2.5") = [⟨SilType.start, 5/2⟩]
    ∧ detectSilencesModel [("silence_start: 3"), ("silence_end: 4.5")]
        = [⟨SilType.endk, 9/2⟩] := by
  refine ⟨?_, ?_, ?_, ?_⟩ <;>
    simp +decide [detectSilencesModel, parseLineEvents, silenceStartPat, silenceEndPat,
      scanMatch, stripPat, parseFixedPoint, digitsVal, String.toList] <;>
    norm_num

/-- C10: in the simple variant, when the deficit videoDuration minus
totalSilenceTime is not positive (events give 6 seconds of silence,
videoDuration 5), no silence file is created, but the promise chain
does not short-circuit: the second then-handler concatenates the
original audio with the resolved original-audio value, writing the
audio twice instead of returning it unchanged; when the deficit is
positive, exactly one silence file of min of the deficit and 5 seconds
is appended, independent of the audio duration. -/
theorem c10_noextend_falls_through :
    extendAudioWithSilenceSimple [⟨SilType.start, 0⟩, ⟨SilType.endk, 6⟩] 5
      = { silenceFiles := [],
          outputTrack := [AudioPart.original, AudioPart.original] }
    ∧ extendAudioWithSilenceSimple [] 3
        = { silenceFiles := [3],
            outputTrack := [AudioPart.original, AudioPart.silence 3] }
    ∧ extendAudioWithSilenceSimple [] 10
        = { silenceFiles := [5],
            outputTrack := [AudioPart.original, AudioPart.silence 5] } := by
  refine ⟨?_, ?_, ?_⟩ <;>
    norm_num [extendAudioWithSilenceSimple, totalSilenceTime, min_def]
